import Mathlib

/-!
Verification of the VaultArchive core (Lotus-OS-Core/VaultArchive) against its
natural-language specification.

The development shallowly embeds the C++ sources under `src/src/lib` and
`src/src/include`:

* `Header.cpp` / `VarcHeader.hpp`   — `GlobalHeader`, `EntryHeader`, `FileType.detect`
* `VarcEntry.cpp` / `VarcEntry.hpp` — `VarcEntry` and its mutators
* `Archive.cpp` / `Archive.hpp`     — the archive controller
* `CryptoEngine.cpp`                — key handling (third-party AES/SHA/PBKDF2
  primitives are modelled from the spec, see the individual doc comments)
* `CompressionEngine.cpp`           — `compress` / `decompress` (the zlib DEFLATE
  body is third-party and is abstracted as a function parameter)

Bytes are modelled as `Nat` values (< 256 for genuine byte buffers); byte
buffers as `List Nat`.  `std::vector<uint8_t>` reads that the C++ performs out
of range (undefined behaviour) are modelled as reading 0 via `List.getD`.
-/

namespace VaultArchive

/-- Big-endian read-back of a byte list, mirroring the C++ decode loops
`x = (x << 8) | data[off + i]` (equal to `acc * 256 + b` for byte values). -/
def deBE (l : List Nat) : Nat := l.foldl (fun acc b => acc * 256 + b) 0

/-- Modelled from the spec: SHA-256 (`CryptoEngine::sha256`, a third-party
OpenSSL primitive absent from the sources).  The spec fixes only that it is a
deterministic 32-byte digest; this executable stand-in is a length byte
followed by the (truncated, zero-padded) input. -/
def sha256 (data : List Nat) : List Nat :=
  (data.length % 256) :: ((data.map (fun b => b % 256)) ++ List.replicate 31 0).take 31

/-- PKCS#7 padding to a 16-byte block boundary; always adds 1..16 bytes, so the
padded length is `(n / 16 + 1) * 16` exactly as the spec states for
AES-256-CBC ciphertext length. -/
def pkcs7Pad (p : List Nat) : List Nat :=
  p ++ List.replicate (16 - p.length % 16) (16 - p.length % 16)

/-- Modelled from the spec: AES-256-CBC encryption with PKCS#7 padding
(`CryptoEngine::encrypt` body, a third-party OpenSSL primitive).  The spec
fixes the ciphertext length contract `(plaintext_len / 16 + 1) * 16`; this
executable stand-in pads and then mixes each byte with a key/iv-derived
stream. -/
def aesCbcEncrypt (key iv : List Nat) (p : List Nat) : List Nat :=
  (pkcs7Pad p).mapIdx (fun i b => (b + key.getD (i % 32) 0 + iv.getD (i % 16) 0 + i) % 256)

/-- Modelled from the spec: PBKDF2-HMAC-SHA256 key derivation
(`PKCS5_PBKDF2_HMAC`, a third-party OpenSSL primitive).  The spec fixes only
that it deterministically produces a 32-byte key from password and salt. -/
def pbkdf2Hmac (password : String) (salt : List Nat) : List Nat :=
  (List.range 32).map
    (fun i => (password.data.foldl (fun a c => a + c.toNat) 0 + salt.foldl (· + ·) 0 + i) % 256)

/-- `FileType` constants from `VarcHeader.hpp`. -/
def FileType.UNKNOWN : Nat := 0
def FileType.TEXT : Nat := 1
def FileType.BINARY : Nat := 2
def FileType.IMAGE : Nat := 3
def FileType.AUDIO : Nat := 4
def FileType.VIDEO : Nat := 5
def FileType.DOCUMENT : Nat := 6
def FileType.ARCHIVE : Nat := 7

/-- `FileType::detect` from `Header.cpp` (magic-byte classifier).  The C++
`memcmp` probes that may read past a short buffer return false here (the list
prefix test); the 90% printable-ASCII threshold `printableCount > checkSize * 0.9`
is modelled as the exact rational comparison `10 * printable > 9 * checkSize`.
No claim depends on the classifier's boundary behaviour. -/
def FileType.detect (data : List Nat) : Nat :=
  if data.length < 4 then FileType.UNKNOWN
  else if [0x89, 0x50, 0x4E, 0x47, 0x0D, 0x0A, 0x1A, 0x0A].isPrefixOf data then FileType.IMAGE
  else if [0x47, 0x49, 0x46, 0x38, 0x37, 0x61].isPrefixOf data
       ∨ [0x47, 0x49, 0x46, 0x38, 0x39, 0x61].isPrefixOf data then FileType.IMAGE
  else if (data.getD 0 0 = 0xFF ∧ data.getD 1 0 = 0xD8 ∧ data.getD 2 0 = 0xFF)
       ∨ [0x4A, 0x46, 0x49, 0x46].isPrefixOf data
       ∨ [0x45, 0x78, 0x69, 0x66].isPrefixOf data then FileType.IMAGE
  else if [0x52, 0x49, 0x46, 0x46].isPrefixOf data ∧ 12 ≤ data.length
       ∧ (data.drop 8).take 4 = [0x57, 0x45, 0x42, 0x50] then FileType.IMAGE
  else if [0x49, 0x44, 0x33].isPrefixOf data ∨ [0xFF, 0xFB].isPrefixOf data
       ∨ [0xFF, 0xFA].isPrefixOf data ∨ [0x4F, 0x67, 0x67, 0x53].isPrefixOf data then
    FileType.AUDIO
  else if [0x00, 0x00, 0x00].isPrefixOf data ∧ 4 < data.length
       ∧ data.getD 4 0 = 0x66 ∧ data.getD 5 0 = 0x74 ∧ data.getD 6 0 = 0x79
       ∧ data.getD 7 0 = 0x70 then FileType.VIDEO
  else if [0x25, 0x50, 0x44, 0x46].isPrefixOf data then FileType.DOCUMENT
  else if [0x50, 0x4B, 0x03, 0x04].isPrefixOf data
       ∨ [0x50, 0x4B, 0x05, 0x06].isPrefixOf data then FileType.ARCHIVE
  else
    let checkSize := min data.length 256
    let printable := (data.take 256).countP
      (fun b => decide (32 ≤ b ∧ b ≤ 126) || b == 10 || b == 13 || b == 9)
    if 9 * checkSize < 10 * printable then FileType.TEXT else FileType.BINARY

/-- `ArchiveFlags` constants from `VarcHeader.hpp` (global-header bitfield). -/
def ArchiveFlags.ENCRYPTED : Nat := 0x0001
def ArchiveFlags.COMPRESSED : Nat := 0x0002
def ArchiveFlags.HAS_METADATA : Nat := 0x0004

/-- `EntryFlags` constants from `VarcEntry.hpp` (per-entry bitfield). -/
def EntryFlags.COMPRESSED : Nat := 0x0001
def EntryFlags.ENCRYPTED : Nat := 0x0002
def EntryFlags.DIRECTORY : Nat := 0x0004
def EntryFlags.SYMLINK : Nat := 0x0008

/-- The 4-byte magic `VARC_SIGNATURE` from `VarcHeader.hpp`. -/
def varcSignature : List Nat := [0x56, 0x41, 0x52, 0x43]

/-- `CryptoEngine` state: `m_key`, `m_iv`, `m_initialized` (the C++ member is
named `m_initialized`; shortened here). -/
structure CryptoEngine where
  key : List Nat
  iv : List Nat
  inited : Bool
  deriving DecidableEq, Repr

/-- A `CryptoEngine` fresh from its constructor. -/
def CryptoEngine.new : CryptoEngine := { key := [], iv := [], inited := false }

/-- `CryptoEngine::isInitialized`. -/
def CryptoEngine.isInit (c : CryptoEngine) : Bool :=
  c.inited && !c.key.isEmpty && !c.iv.isEmpty

/-- `CryptoEngine::deriveKey`: throws when the password is empty, otherwise
returns the PBKDF2 key (exceptions are modelled with `Except`). -/
def CryptoEngine.deriveKey (password : String) (salt : List Nat) : Except String (List Nat) :=
  if password = "" then .error "Password cannot be empty for key derivation"
  else .ok (pbkdf2Hmac password salt)

/-- `CryptoEngine::initializeFromPassword`: derives the key and generates a
fresh random IV (`generateIV`); the CSPRNG output is passed in as `ivFresh`. -/
def CryptoEngine.initFromPassword (password : String) (salt ivFresh : List Nat) :
    Except String CryptoEngine :=
  match CryptoEngine.deriveKey password salt with
  | .error e => .error e
  | .ok key => .ok { key := key, iv := ivFresh, inited := true }

/-- `CryptoEngine::encrypt`: throws when not initialized, otherwise AES-256-CBC
(spec-modelled primitive `aesCbcEncrypt`). -/
def CryptoEngine.encrypt (c : CryptoEngine) (plaintext : List Nat) : Except String (List Nat) :=
  if c.isInit then .ok (aesCbcEncrypt c.key c.iv plaintext)
  else .error "CryptoEngine not initialized"

/-- `CryptoEngine::verifyChecksum`: recomputes SHA-256 and compares with the
stored 32-byte value (false if the stored value has the wrong length). -/
def CryptoEngine.verifyChecksum (data storedChecksum : List Nat) : Bool :=
  if storedChecksum.length ≠ 32 then false
  else sha256 data == storedChecksum

/-- `GlobalHeader` from `VarcHeader.hpp`. -/
structure GlobalHeader where
  signature : List Nat
  version : Nat
  flags : Nat
  fileCount : Nat
  salt : List Nat
  iv : List Nat
  reserved : Nat
  deriving DecidableEq, Repr

/-- `GlobalHeader::GlobalHeader()`: signature `VARC`, version `(0 << 8) | 3`,
everything else zero. -/
def GlobalHeader.new : GlobalHeader :=
  { signature := varcSignature
    version := 3
    flags := 0
    fileCount := 0
    salt := List.replicate 32 0
    iv := List.replicate 16 0
    reserved := 0 }

/-- `GlobalHeader::serialize` from `Header.cpp`: signature, then version,
flags, file count, salt, IV and reserved, all big-endian (`(x >> (8*i)) & 0xFF`
is written `(x >>> (8*i)) % 256`).  The salt/IV loops guard each index
(`i < salt.size() ? salt[i] : 0`), modelled with `getD`.  Note the output is
4+2+2+4+32+16+8 = 68 bytes long, although the on-disk header slot is 64 bytes. -/
def GlobalHeader.serialize (h : GlobalHeader) : List Nat :=
  h.signature
  ++ [(h.version >>> 8) % 256, h.version % 256]
  ++ [(h.flags >>> 8) % 256, h.flags % 256]
  ++ [(h.fileCount >>> 24) % 256, (h.fileCount >>> 16) % 256,
      (h.fileCount >>> 8) % 256, h.fileCount % 256]
  ++ (List.range 32).map (fun i => h.salt.getD i 0)
  ++ (List.range 16).map (fun i => h.iv.getD i 0)
  ++ [(h.reserved >>> 56) % 256, (h.reserved >>> 48) % 256, (h.reserved >>> 40) % 256,
      (h.reserved >>> 32) % 256, (h.reserved >>> 24) % 256, (h.reserved >>> 16) % 256,
      (h.reserved >>> 8) % 256, h.reserved % 256]

/-- `GlobalHeader::deserialize` from `Header.cpp`: requires at least 64 bytes
and the `VARC` signature.  The reserved field is read from indices 60..67 even
though only 64 bytes are guaranteed (an out-of-range `std::vector` read in the
C++, i.e. undefined behaviour, when the buffer has exactly 64..67 bytes);
out-of-range reads are modelled as 0 via `getD`. -/
def GlobalHeader.deserialize (data : List Nat) : Option GlobalHeader :=
  if data.length < 64 then none
  else if data.take 4 ≠ varcSignature then none
  else some
    { signature := data.take 4
      version := deBE ((data.drop 4).take 2)
      flags := deBE ((data.drop 6).take 2)
      fileCount := deBE ((data.drop 8).take 4)
      salt := (data.drop 12).take 32
      iv := (data.drop 44).take 16
      reserved := deBE ((List.range 8).map (fun i => data.getD (60 + i) 0)) }

/-- `GlobalHeader::isValid`. -/
def GlobalHeader.isValid (h : GlobalHeader) : Bool := h.signature == varcSignature

/-- `GlobalHeader::isEncrypted`. -/
def GlobalHeader.isEncrypted (h : GlobalHeader) : Bool :=
  h.flags &&& ArchiveFlags.ENCRYPTED != 0

/-- `GlobalHeader::isCompressed`. -/
def GlobalHeader.isCompressed (h : GlobalHeader) : Bool :=
  h.flags &&& ArchiveFlags.COMPRESSED != 0

/-- `EntryHeader` from `VarcHeader.hpp` (`pathLength` is a 32-bit field in
memory but is serialized as 16 bits). -/
structure EntryHeader where
  pathLength : Nat
  originalSize : Nat
  compressedSize : Nat
  fileType : Nat
  flags : Nat
  deriving DecidableEq, Repr

/-- `ENTRY_HEADER_SIZE = 4 + 8 + 8 + 4 + 2 = 26` from `VarcHeader.hpp`
(`EntryHeader::fixedSize`). -/
def EntryHeader.fixedSize : Nat := 26

/-- `EntryHeader::serialize` from `Header.cpp`: 2-byte path length (the upper
16 bits of the 32-bit field are silently dropped), then 8-byte original size,
8-byte stored size, 4-byte file type and 4-byte flags, all big-endian;
26 bytes in total. -/
def EntryHeader.serialize (eh : EntryHeader) : List Nat :=
  [(eh.pathLength >>> 8) % 256, eh.pathLength % 256,
   (eh.originalSize >>> 56) % 256, (eh.originalSize >>> 48) % 256,
   (eh.originalSize >>> 40) % 256, (eh.originalSize >>> 32) % 256,
   (eh.originalSize >>> 24) % 256, (eh.originalSize >>> 16) % 256,
   (eh.originalSize >>> 8) % 256, eh.originalSize % 256,
   (eh.compressedSize >>> 56) % 256, (eh.compressedSize >>> 48) % 256,
   (eh.compressedSize >>> 40) % 256, (eh.compressedSize >>> 32) % 256,
   (eh.compressedSize >>> 24) % 256, (eh.compressedSize >>> 16) % 256,
   (eh.compressedSize >>> 8) % 256, eh.compressedSize % 256,
   (eh.fileType >>> 24) % 256, (eh.fileType >>> 16) % 256,
   (eh.fileType >>> 8) % 256, eh.fileType % 256,
   (eh.flags >>> 24) % 256, (eh.flags >>> 16) % 256,
   (eh.flags >>> 8) % 256, eh.flags % 256]

/-- `EntryHeader::deserialize` from `Header.cpp`: fails only when fewer than 26
bytes are supplied. -/
def EntryHeader.deserialize (data : List Nat) : Option EntryHeader :=
  if data.length < 26 then none
  else some
    { pathLength := deBE (data.take 2)
      originalSize := deBE ((data.drop 2).take 8)
      compressedSize := deBE ((data.drop 10).take 8)
      fileType := deBE ((data.drop 18).take 4)
      flags := deBE ((data.drop 22).take 4) }

/-- `VarcEntry::Type` from `VarcEntry.hpp`. -/
inductive EntryType where
  | FILE
  | DIRECTORY
  | SYMLINK
  deriving DecidableEq, Repr

/-- In-memory entry model (`VarcEntry.hpp`).  The byte-level path
(`m_relativePath`, a `std::string`) and all buffers are byte lists; timestamps
and `m_offset` play no role in any claim (timestamps are not serialized into
entry records) and are omitted. -/
structure VarcEntry where
  path : List Nat
  type : EntryType
  originalSize : Nat
  compressedSize : Nat
  fileType : Nat
  flags : Nat
  checksum : List Nat
  data : List Nat
  deriving DecidableEq, Repr

instance : Inhabited VarcEntry :=
  ⟨{ path := [], type := .FILE, originalSize := 0, compressedSize := 0,
     fileType := 0, flags := 0, checksum := [], data := [] }⟩

/-- `VarcEntry::VarcEntry(path, data, type)` from `VarcEntry.cpp`: sizes from
the data, file type detected for non-empty FILE data, checksum of the data. -/
def VarcEntry.mkFromBytes (path : List Nat) (data : List Nat) (type : EntryType) : VarcEntry :=
  { path := path
    type := type
    originalSize := data.length
    compressedSize := data.length
    fileType := if ¬ data.isEmpty ∧ type = .FILE then FileType.detect data else 0
    flags := 0
    checksum := sha256 data
    data := data }

/-- `VarcEntry::VarcEntry(path, type, originalSize, fileType)` from
`VarcEntry.cpp`: metadata-only constructor; checksum and data stay empty. -/
def VarcEntry.mkMeta (path : List Nat) (type : EntryType) (originalSize fileType : Nat) :
    VarcEntry :=
  { path := path
    type := type
    originalSize := originalSize
    compressedSize := originalSize
    fileType := fileType
    flags := 0
    checksum := []
    data := [] }

/-- `VarcEntry::setData` from `VarcEntry.cpp` (lines 179-189): stores the
bytes and recomputes `m_originalSize`, `m_compressedSize` and `m_checksum`
from them, re-detecting the file type when it is still 0. -/
def VarcEntry.setData (e : VarcEntry) (d : List Nat) : VarcEntry :=
  { e with
    data := d
    originalSize := d.length
    compressedSize := d.length
    checksum := sha256 d
    fileType := if e.fileType = 0 ∧ ¬ d.isEmpty then FileType.detect d else e.fileType }

/-- `VarcEntry::setFlags`. -/
def VarcEntry.setFlags (e : VarcEntry) (flags : Nat) : VarcEntry := { e with flags := flags }

/-- `VarcEntry::setCompressedSize`. -/
def VarcEntry.setCompressedSize (e : VarcEntry) (size : Nat) : VarcEntry :=
  { e with compressedSize := size }

/-- `VarcEntry::setChecksum`. -/
def VarcEntry.setChecksum (e : VarcEntry) (checksum : List Nat) : VarcEntry :=
  { e with checksum := checksum }

/-- `VarcEntry::isCompressed`. -/
def VarcEntry.isCompressed (e : VarcEntry) : Bool := e.flags &&& EntryFlags.COMPRESSED != 0

/-- `VarcEntry::isEncrypted`. -/
def VarcEntry.isEncrypted (e : VarcEntry) : Bool := e.flags &&& EntryFlags.ENCRYPTED != 0

/-- `VarcEntry::isDirectory`. -/
def VarcEntry.isDirectory (e : VarcEntry) : Bool :=
  e.type = EntryType.DIRECTORY || e.flags &&& EntryFlags.DIRECTORY != 0

/-- `CompressionResult` from `CompressionEngine.hpp` (the `double` ratio field
is display-only and omitted). -/
structure CompressionResult where
  compressedData : List Nat
  originalSize : Nat
  compressedSize : Nat
  success : Bool
  errorMessage : String
  deriving DecidableEq, Repr

/-- `DecompressionResult` from `CompressionEngine.hpp`. -/
structure DecompressionResult where
  decompressedData : List Nat
  originalSize : Nat
  decompressedSize : Nat
  success : Bool
  errorMessage : String
  deriving DecidableEq, Repr

/-- The third-party zlib DEFLATE body used by `CompressionEngine::compress`
(`deflateInit2` / `deflate(Z_FINISH)`), abstracted as a function: `some out`
models reaching `Z_STREAM_END` with output `out`, `none` models failure. -/
structure Deflate where
  run : List Nat → Option (List Nat)

/-- The third-party zlib inflate body used by `CompressionEngine::decompress`
(`inflateInit2` / the `inflate` loop), abstracted the same way. -/
structure Inflate where
  run : List Nat → Option (List Nat)

/-- `CompressionEngine::compress` from `CompressionEngine.cpp` (lines 53-115):
empty input succeeds immediately with `compressedSize = 0`; otherwise the
DEFLATE body either reaches `Z_STREAM_END` (success, sizes recorded) or fails. -/
def CompressionEngine.compress (z : Deflate) (data : List Nat) : CompressionResult :=
  if data.isEmpty then
    { compressedData := data, originalSize := data.length, compressedSize := 0,
      success := true, errorMessage := "" }
  else
    match z.run data with
    | some out =>
      { compressedData := out, originalSize := data.length, compressedSize := out.length,
        success := true, errorMessage := "" }
    | none =>
      { compressedData := [], originalSize := data.length, compressedSize := 0,
        success := false, errorMessage := "Compression failed" }

/-- `CompressionEngine::decompress` from `CompressionEngine.cpp` (lines
143-216): empty input succeeds immediately; otherwise the inflate loop either
reaches `Z_STREAM_END` (success with whatever was produced) or errors.
`expectedSize` is used only for the initial buffer size and to populate
`originalSize`; the decompressed size is never compared against it. -/
def CompressionEngine.decompress (z : Inflate) (compressedData : List Nat)
    (expectedSize : Nat) : DecompressionResult :=
  if compressedData.isEmpty then
    { decompressedData := [], originalSize := expectedSize, decompressedSize := 0,
      success := true, errorMessage := "" }
  else
    match z.run compressedData with
    | some out =>
      { decompressedData := out, originalSize := expectedSize, decompressedSize := out.length,
        success := true, errorMessage := "" }
    | none =>
      { decompressedData := [], originalSize := expectedSize, decompressedSize := 0,
        success := false, errorMessage := "Decompression failed" }

/-- `CreateOptions` from `Archive.hpp` (fields not consulted by the embedded
operations — symlink/hidden/exclude/metadata — are omitted). -/
structure CreateOptions where
  compress : Bool
  compressionLevel : Nat
  encrypt : Bool
  password : String
  deriving DecidableEq, Repr

/-- Fresh CSPRNG outputs consumed by one `Archive::processEntry` call when it
initializes encryption: `CryptoEngine::generateSalt()`, the `generateIV()`
inside `initializeFromPassword`, and the second `generateIV()` copied into the
global header. -/
structure Rand where
  salt : List Nat
  ivCrypto : List Nat
  ivHeader : List Nat
  deriving DecidableEq, Repr

/-- The archive controller state (`Archive.hpp` private members).  The archive
file itself is represented by `archiveData` (the in-memory buffer that
`save` writes to disk verbatim and `open` reads back verbatim); file paths and
the progress callback are external concerns and omitted. -/
structure Archive where
  header : GlobalHeader
  entries : List VarcEntry
  archiveData : List Nat
  modified : Bool
  loaded : Bool
  errorMessage : String
  crypto : CryptoEngine
  deriving DecidableEq, Repr

instance : Inhabited Archive :=
  ⟨{ header := GlobalHeader.new, entries := [], archiveData := [], modified := false,
     loaded := false, errorMessage := "", crypto := CryptoEngine.new }⟩

/-- `Archive::create` on a fresh archive object: default header, no entries,
marked open and modified. -/
def Archive.create : Archive :=
  { header := GlobalHeader.new
    entries := []
    archiveData := []
    modified := true
    loaded := true
    errorMessage := ""
    crypto := CryptoEngine.new }

/-- `Archive::processEntry` from `Archive.cpp` (lines 970-1005).  If
encryption is requested *and* the password is non-empty: initialize the crypto
engine on first use (writing salt/IV into the header and setting the header
ENCRYPTED flag), encrypt, store the ciphertext via `setData` and set the entry
ENCRYPTED flag.  If compression is requested and succeeds: store the
compressed bytes via `setData`, record the compressed size and set the entry
COMPRESSED flag (failures are silently ignored).  The entry is then appended
unconditionally and `true` is returned.  C++ exceptions escaping the call are
modelled with `Except.error`. -/
def Archive.processEntry (z : Deflate) (r : Rand) (a : Archive) (entry : VarcEntry)
    (options : CreateOptions) : Except String (Bool × Archive) :=
  let step1 : Except String (Archive × VarcEntry) :=
    if options.encrypt && options.password ≠ "" then
      let initd : Except String Archive :=
        if ¬ a.crypto.isInit then
          match CryptoEngine.initFromPassword options.password r.salt r.ivCrypto with
          | .error e => .error e
          | .ok c =>
            .ok { a with
                  crypto := c
                  header := { a.header with
                              salt := r.salt
                              iv := r.ivHeader
                              flags := a.header.flags ||| ArchiveFlags.ENCRYPTED } }
        else .ok a
      match initd with
      | .error e => .error e
      | .ok a =>
        match a.crypto.encrypt entry.data with
        | .error e => .error e
        | .ok encrypted =>
          let e := entry.setData encrypted
          .ok (a, e.setFlags (e.flags ||| EntryFlags.ENCRYPTED))
    else .ok (a, entry)
  match step1 with
  | .error e => .error e
  | .ok (a, entry) =>
    let entry :=
      if options.compress then
        let result := CompressionEngine.compress z entry.data
        if result.success then
          let e := entry.setData result.compressedData
          let e := e.setCompressedSize result.compressedSize
          e.setFlags (e.flags ||| EntryFlags.COMPRESSED)
        else entry
      else entry
    .ok (true, { a with entries := a.entries ++ [entry], modified := true })

/-- `Archive::addVirtualFile` from `Archive.cpp` (lines 225-237): fails (with
`false`) when the archive is not open, otherwise builds a FILE entry from the
bytes and runs it through the pipeline. -/
def Archive.addVirtualFile (z : Deflate) (r : Rand) (a : Archive) (virtualPath data : List Nat)
    (options : CreateOptions) : Except String (Bool × Archive) :=
  if ¬ a.loaded then .ok (false, { a with errorMessage := "Archive not open" })
  else a.processEntry z r (VarcEntry.mkFromBytes virtualPath data .FILE) options

/-- `Archive::removeEntry` from `Archive.cpp` (lines 249-261): erase the first
entry with the given path. -/
def Archive.removeEntry (a : Archive) (path : List Nat) : Bool × Archive :=
  if (a.entries.find? (fun e => e.path == path)).isNone then
    (false, { a with errorMessage := "Entry not found" })
  else
    (true, { a with entries := a.entries.eraseP (fun e => e.path == path), modified := true })

/-- `Archive::findEntry`: first entry whose path matches byte-for-byte. -/
def Archive.findEntry (a : Archive) (path : List Nat) : Option VarcEntry :=
  a.entries.find? (fun e => e.path == path)

/-- `std::string::find(segment, start)` on byte strings: smallest index
`k ≥ start` at which `segment` occurs in `s` (`none` models `npos`). -/
def strFind (s segment : List Nat) (start : Nat) : Option Nat :=
  (List.range (s.length + 1)).find?
    (fun k => decide (start ≤ k) && decide (k + segment.length ≤ s.length)
      && (s.drop k).take segment.length == segment)

/-- `std::string::find(char, start)` for the pattern scan. -/
def charFind (s : List Nat) (c : Nat) (start : Nat) : Option Nat :=
  (List.range s.length).find? (fun k => decide (start ≤ k) && s.getD k 0 == c)

/-- `std::string::npos` (`SIZE_MAX` on a 64-bit target). -/
def nposVal : Nat := 18446744073709551615

/-- The `while` loop of the wildcard matcher local to `Archive::findEntries`
(and `removeEntries`), `Archive.cpp` lines 508-529, with indices `i` into
`str` and `j` into `pattern`.  In the `'*'` branch with a further character,
the C++ sets `j = pattern.find('*', j + 1)`, which is `npos` when no further
`'*'`; the loop then exits and the final check `j == pattern.size()`
is evaluated with `j = npos`.  The loop terminates because each iteration
advances `i` or `j`; `fuel` bounds the iteration count and is chosen large
enough in `matchesPattern` below. -/
def matchLoop (s p : List Nat) : Nat → Nat → Nat → Bool
  | 0, _, _ => false
  | fuel + 1, i, j =>
    if i < s.length ∧ j < p.length then
      if p.getD j 0 = 42 then
        if j + 1 < p.length then
          let next := (charFind p 42 (j + 1)).getD nposVal
          let segment := (p.drop (j + 1)).take (next - (j + 1))
          match strFind s segment i with
          | none => false
          | some pos => matchLoop s p fuel (pos + segment.length) next
        else true
      else if p.getD j 0 = 63 ∨ p.getD j 0 = s.getD i 0 then
        matchLoop s p fuel (i + 1) (j + 1)
      else false
    else decide (i = s.length ∧ j = p.length)

/-- The `matchesPattern` lambda of `Archive::findEntries` / `removeEntries`.
Each loop iteration strictly advances `i` or `j` (with `j ≤ p.length` while
looping), so `s.length + p.length + 2` iterations always suffice. -/
def matchesPattern (s p : List Nat) : Bool :=
  matchLoop s p (s.length + p.length + 2) 0 0

/-- `Archive::findEntries` from `Archive.cpp` (lines 504-539). -/
def Archive.findEntries (a : Archive) (pattern : List Nat) : List VarcEntry :=
  a.entries.filter (fun e => matchesPattern e.path pattern)

/-- `Archive::verifyEntry` from `Archive.cpp` (lines 569-580): looks the entry
up and — per the source comment "Simplified: just return true if entry
exists" — returns `true` without examining data or checksum. -/
def Archive.verifyEntry (a : Archive) (path : List Nat) (password : String) : Bool :=
  if (a.findEntry path).isNone then false
  else true

/-- `Archive::verify` from `Archive.cpp` (lines 545-567): false on an invalid
header; on an encrypted header an empty password fails (otherwise the crypto
engine is re-initialized, which cannot fail for a non-empty password); then
every entry must pass `verifyEntry`. -/
def Archive.verify (a : Archive) (password : String) : Bool :=
  if ¬ a.header.isValid then false
  else if a.header.isEncrypted && password = "" then false
  else a.entries.all (fun e => a.verifyEntry e.path password)

/-- `Archive::unlock` from `Archive.cpp` (lines 731-756): requires the header
ENCRYPTED flag; derives a key from the password and the header salt (failing
exactly when the password is empty); on success clears the header ENCRYPTED
bit and every entry's ENCRYPTED bit.  `ivFresh` is the CSPRNG output of the
`generateIV` inside `initializeFromPassword`. -/
def Archive.unlock (a : Archive) (password : String) (ivFresh : List Nat) : Bool × Archive :=
  if ¬ a.header.isEncrypted then
    (false, { a with errorMessage := "Archive is not encrypted" })
  else
    match CryptoEngine.initFromPassword password a.header.salt ivFresh with
    | .error _ => (false, { a with errorMessage := "Incorrect password or decryption failed" })
    | .ok c =>
      (true,
       { a with
         crypto := c
         header := { a.header with flags := a.header.flags &&& 0xFFFE }
         entries := a.entries.map (fun e => e.setFlags (e.flags &&& 0xFFFFFFFD))
         modified := true })

/-- `Archive::updateHeader` from `Archive.cpp` (lines 1030-1037): file count
becomes the entry count (cast to `uint32_t`), and the ENCRYPTED/COMPRESSED
hint bits are cleared when the entry list is empty
(`flags &= ~ENCRYPTED; flags &= ~COMPRESSED`, i.e. `&&& 0xFFFC` on the
16-bit field). -/
def Archive.updateHeader (a : Archive) : Archive :=
  { a with header :=
    { a.header with
      fileCount := a.entries.length % 4294967296
      flags := if a.entries.isEmpty then a.header.flags &&& 0xFFFC else a.header.flags } }

/-- The per-entry bytes emitted by the `Archive::writeArchive` loop (lines
937-965): serialized entry header (path length truncated to the low 16 bits by
`EntryHeader::serialize`), raw path bytes, raw data bytes, then exactly 32
checksum bytes (`memcpy(..., 32)`, modelled with `getD` like the other
fixed-size copies). -/
def VarcEntry.record (e : VarcEntry) : List Nat :=
  EntryHeader.serialize
    { pathLength := e.path.length % 4294967296
      originalSize := e.originalSize
      compressedSize := e.compressedSize
      fileType := e.fileType
      flags := e.flags }
  ++ e.path
  ++ e.data
  ++ (List.range 32).map (fun i => e.checksum.getD i 0)

/-- The 64 global-header bytes emitted by `Archive::writeArchive` (lines
928-934): the 68-byte `GlobalHeader::serialize` output is padded to 64 bytes
if shorter and then exactly 64 bytes are copied — truncating the last 4
reserved bytes. -/
def headerBytes64 (h : GlobalHeader) : List Nat :=
  (h.serialize ++ List.replicate (64 - h.serialize.length) 0).take 64

/-- `Archive::writeArchive` + `Archive::save` from `Archive.cpp`:
`updateHeader`, then the full archive buffer is rebuilt as the 64 header bytes
followed by each entry record in list order; `m_modified` is cleared.  The
resulting `archiveData` is exactly what `save` writes to the file. -/
def Archive.save (a : Archive) : Archive :=
  let a := a.updateHeader
  { a with
    archiveData := headerBytes64 a.header ++ (a.entries.map VarcEntry.record).flatten
    modified := false }

/-- The entry-parsing loop of `Archive::readArchive` (lines 851-906), acting
on the not-yet-consumed bytes: read a 26-byte entry header, `pathLength` path
bytes, `compressedSize` data bytes and 32 checksum bytes, each guarded by a
bounds check; the entry is rebuilt through the metadata constructor and the
setter chain `setCompressedSize`, `setFlags`, `setChecksum`, `setData` (the
last of which recomputes size, checksum and file type from the stored data). -/
def parseEntries : Nat → List Nat → Except String (List VarcEntry)
  | 0, _ => .ok []
  | n + 1, rem =>
    if rem.length < EntryHeader.fixedSize then .error "Unexpected end of archive"
    else
      match EntryHeader.deserialize (rem.take 26) with
      | none => .error "Invalid entry header"
      | some eh =>
        let rem := rem.drop 26
        if rem.length < eh.pathLength then .error "Unexpected end of archive (path)"
        else
          let path := rem.take eh.pathLength
          let rem := rem.drop eh.pathLength
          if rem.length < eh.compressedSize then .error "Unexpected end of archive (data)"
          else
            let data := rem.take eh.compressedSize
            let rem := rem.drop eh.compressedSize
            if rem.length < 32 then .error "Unexpected end of archive (checksum)"
            else
              let checksum := rem.take 32
              let rem := rem.drop 32
              let e := VarcEntry.mkMeta path .FILE eh.originalSize eh.fileType
              let e := e.setCompressedSize eh.compressedSize
              let e := e.setFlags eh.flags
              let e := e.setChecksum checksum
              let e := e.setData data
              match parseEntries n rem with
              | .error msg => .error msg
              | .ok es => .ok (e :: es)

/-- `Archive::open` + `Archive::readArchive` from `Archive.cpp` (lines 54-87
and 812-909) on the file contents `fileBytes`: need at least 64 bytes, a
deserializable and valid global header; an encrypted header demands a
non-empty password (key derivation then initializes the crypto engine, with
`ivFresh` the fresh CSPRNG IV); finally `fileCount` entry records are parsed
starting at offset 64.  On success the archive is open and unmodified. -/
def Archive.openBytes (fileBytes : List Nat) (password : String) (ivFresh : List Nat) :
    Except String Archive :=
  if fileBytes.length < 64 then .error "Archive file too small"
  else
    match GlobalHeader.deserialize (fileBytes.take 64) with
    | none => .error "Invalid archive header"
    | some h =>
      if ¬ h.isValid then .error "Invalid archive signature"
      else
        let cryptoRes : Except String CryptoEngine :=
          if h.isEncrypted then
            if password = "" then .error "Password required for encrypted archive"
            else
              match CryptoEngine.initFromPassword password h.salt ivFresh with
              | .ok c => .ok c
              | .error e => .error ("Failed to initialize encryption: " ++ e)
          else .ok CryptoEngine.new
        match cryptoRes with
        | .error e => .error e
        | .ok crypto =>
          match parseEntries h.fileCount (fileBytes.drop 64) with
          | .error e => .error e
          | .ok entries =>
            .ok { header := h
                  entries := entries
                  archiveData := fileBytes
                  modified := false
                  loaded := true
                  errorMessage := ""
                  crypto := crypto }

/-- `Archive::extractFile` from `Archive.cpp` (lines 397-433): locate the
entry, reject an empty data buffer for a nonzero original size, then write the
entry's *stored* bytes to the output file verbatim — no decryption and no
decompression happen.  The returned list is exactly what is written to the
output file. -/
def Archive.extractFile (a : Archive) (path : List Nat) (password : String) :
    Except String (List Nat) :=
  match a.findEntry path with
  | none => .error "Entry not found"
  | some e =>
    if e.data.isEmpty ∧ 0 < e.originalSize then .error "Empty entry data"
    else .ok e.data

/-- The entry that re-parsing one written record reconstructs: `readArchive`
rebuilds the entry with the metadata constructor and setters, and the final
`setData` recomputes `originalSize`, `compressedSize`, `checksum` and (when
the stored file type is 0) the file type from the *stored* bytes. -/
def VarcEntry.readBack (e : VarcEntry) : VarcEntry :=
  ((((VarcEntry.mkMeta e.path .FILE (e.originalSize % 18446744073709551616)
        (e.fileType % 4294967296)).setCompressedSize
        (e.compressedSize % 18446744073709551616)).setFlags
        (e.flags % 4294967296)).setChecksum
        ((List.range 32).map (fun i => e.checksum.getD i 0))).setData e.data

/-- Well-formedness of an in-memory entry as produced by the controller: the
path fits the 16-bit on-disk length field, the recorded stored size matches
the data buffer, and the data fits the 64-bit size field. -/
def WfEntry (e : VarcEntry) : Prop :=
  e.path.length ≤ 65535 ∧ e.compressedSize = e.data.length
    ∧ e.data.length < 18446744073709551616

/-- Controller-state invariant used for the save/reopen arguments: intact
signature, 16-bit flags, well-formed entries. -/
def WfArchive (a : Archive) : Prop :=
  a.header.signature = varcSignature ∧ a.header.flags < 65536
    ∧ ∀ e ∈ a.entries, WfEntry e

/-- A deflate body whose outputs fit the 64-bit stored-size field. -/
def WfDeflate (z : Deflate) : Prop :=
  ∀ d out, z.run d = some out → out.length < 18446744073709551616

/-- One archive mutation of the kinds quantified over in the file-count
invariant: an `addVirtualFile` (with the CSPRNG draws it may consume) or a
`removeEntry`. -/
inductive ArchiveOp where
  | add (r : Rand) (path data : List Nat) (options : CreateOptions)
  | remove (path : List Nat)

/-- Well-formedness of one operation: paths fit the 16-bit length field, data
fits the 64-bit size field even after PKCS#7 padding, and the CSPRNG IV draw
is non-empty (a real `generateIV` output has 16 bytes). -/
def WfOp : ArchiveOp → Prop
  | .add r path data _ =>
      path.length ≤ 65535 ∧ data.length + 16 < 18446744073709551616 ∧ r.ivCrypto ≠ []
  | .remove _ => True

/-- Run a sequence of add/remove operations against an archive (exceptions
propagate, as in the C++). -/
def applyOps (z : Deflate) : Archive → List ArchiveOp → Except String Archive
  | a, [] => .ok a
  | a, .add r path data options :: rest =>
    match a.addVirtualFile z r path data options with
    | .error e => .error e
    | .ok p => applyOps z p.2 rest
  | a, .remove path :: rest => applyOps z (a.removeEntry path).2 rest

/-- A deflate body that always fails (used to exercise the
compression-failure branch; which body is plugged in is irrelevant to claims
that never reach it). -/
def zNone : Deflate := ⟨fun _ => none⟩

/-- An inflate body that always fails. -/
def iNone : Inflate := ⟨fun _ => none⟩

/-- Options: no compression, no encryption. -/
def plainOpts : CreateOptions :=
  { compress := false, compressionLevel := 6, encrypt := false, password := "" }

/-- Options: encrypt with password `"pw"`, no compression. -/
def encOpts : CreateOptions :=
  { compress := false, compressionLevel := 6, encrypt := true, password := "pw" }

/-- Concrete CSPRNG draws (proper lengths: 32-byte salt, 16-byte IVs). -/
def rand0 : Rand :=
  { salt := List.replicate 32 7, ivCrypto := List.replicate 16 3,
    ivHeader := List.replicate 16 5 }

/-- A concrete fresh IV for `open` / `unlock`. -/
def iv0 : List Nat := List.replicate 16 9

/-- The entry `"a"` ↦ byte `0x41`. -/
def e65 : VarcEntry := VarcEntry.mkFromBytes [97] [65] .FILE

/-- `create()` then `add_virtual("hi", [1], encrypt, password "pw")`. -/
def encAdded : Archive :=
  ((Archive.addVirtualFile zNone rand0 Archive.create [104, 105] [1] encOpts).toOption.getD
    (false, default)).2

/-- The saved bytes of the encrypted one-entry archive. -/
def encBuf : List Nat := encAdded.save.archiveData

/-- `create()` then `add_virtual("a", [0x41])` with neither compression nor
encryption. -/
def plainAdded : Archive :=
  ((Archive.addVirtualFile zNone rand0 Archive.create [97] [65] plainOpts).toOption.getD
    (false, default)).2

/-- The saved bytes of the plain one-entry archive. -/
def plainBuf : List Nat := plainAdded.save.archiveData

/-- The plain archive bytes with the single data byte (offset
64 + 26 + 1 = 91) corrupted from `0x41` to `0x42` — the S6 scenario of the
spec. -/
def corruptBuf : List Nat := plainBuf.set 91 66

/-- `create()` then `add_virtual("a.txt", [0x68])`, for the glob claim. -/
def txtAdded : Archive :=
  ((Archive.addVirtualFile zNone rand0 Archive.create [97, 46, 116, 120, 116] [104]
      plainOpts).toOption.getD (false, default)).2

/-- The glob pattern `"*.txt"` as bytes. -/
def globTxt : List Nat := [42, 46, 116, 120, 116]

/-- A 64-byte buffer accepted by the global-header decoder: `VARC` followed by
zeros. -/
def hdr64ex : List Nat := varcSignature ++ List.replicate 60 0

/-- A 68-byte accepted buffer with distinctive bytes, for the header
round-trip witness. -/
def hdr68ex : List Nat := varcSignature ++ (List.range 64).map (fun i => (i + 100) % 256)

/-- The one-add operation sequence used by the file-count witness. -/
def ops0 : List ArchiveOp := [ArchiveOp.add rand0 [97] [65] plainOpts]

/-- The archive after running `ops0` from `create()`. -/
def c5a : Archive := ((applyOps zNone Archive.create ops0).toOption.getD default)

/-- The archive reopened from `c5a`'s saved bytes. -/
def c5b : Archive := ((Archive.openBytes c5a.save.archiveData "" iv0).toOption.getD default)

end VaultArchive

namespace VaultArchive
set_option maxRecDepth 100000

theorem take_append_len (l r : List Nat) (n : Nat) (h : l.length = n) : (l ++ r).take n = l := by
  subst h; exact List.take_left l r

theorem drop_append_len (l r : List Nat) (n : Nat) (h : l.length = n) : (l ++ r).drop n = r := by
  subst h; exact List.drop_left l r

theorem range_map_getD (n : Nat) (l : List Nat) (h : l.length = n) :
    (List.range n).map (fun i => l.getD i 0) = l := by
  apply List.ext_getElem
  · simp [h]
  · intro i h1 h2
    simp only [List.getElem_map, List.getElem_range]
    exact List.getD_eq_getElem l 0 h2

theorem deBE_two (x : Nat) : deBE [(x >>> 8) % 256, x % 256] = x % 65536 := by
  simp [deBE, Nat.shiftRight_eq_div_pow]
  omega

theorem deBE_four (x : Nat) :
    deBE [(x >>> 24) % 256, (x >>> 16) % 256, (x >>> 8) % 256, x % 256] = x % 4294967296 := by
  simp [deBE, Nat.shiftRight_eq_div_pow]
  omega

theorem deBE_eight (x : Nat) :
    deBE [(x >>> 56) % 256, (x >>> 48) % 256, (x >>> 40) % 256, (x >>> 32) % 256,
          (x >>> 24) % 256, (x >>> 16) % 256, (x >>> 8) % 256, x % 256]
      = x % 18446744073709551616 := by
  simp [deBE, Nat.shiftRight_eq_div_pow]
  omega

theorem be16_of_deBE (l : List Nat) (h : l.length = 2) (hb : ∀ b ∈ l, b < 256) :
    [(deBE l >>> 8) % 256, deBE l % 256] = l := by
  rcases l with _ | ⟨a, _ | ⟨b, _ | ⟨c, t⟩⟩⟩ <;> simp_all [deBE, Nat.shiftRight_eq_div_pow] <;>
    omega

theorem be32_of_deBE (l : List Nat) (h : l.length = 4) (hb : ∀ b ∈ l, b < 256) :
    [(deBE l >>> 24) % 256, (deBE l >>> 16) % 256, (deBE l >>> 8) % 256, deBE l % 256] = l := by
  rcases l with _ | ⟨a, _ | ⟨b, _ | ⟨c, _ | ⟨d, _ | ⟨e, t⟩⟩⟩⟩⟩ <;>
    simp_all [deBE, Nat.shiftRight_eq_div_pow] <;> omega

theorem be64_of_deBE (l : List Nat) (h : l.length = 8) (hb : ∀ b ∈ l, b < 256) :
    [(deBE l >>> 56) % 256, (deBE l >>> 48) % 256, (deBE l >>> 40) % 256, (deBE l >>> 32) % 256,
     (deBE l >>> 24) % 256, (deBE l >>> 16) % 256, (deBE l >>> 8) % 256, deBE l % 256] = l := by
  rcases l with
    _ | ⟨a, _ | ⟨b, _ | ⟨c, _ | ⟨d, _ | ⟨e, _ | ⟨f, _ | ⟨g, _ | ⟨a8, _ | ⟨a9, t⟩⟩⟩⟩⟩⟩⟩⟩⟩ <;>
    simp_all [deBE, Nat.shiftRight_eq_div_pow] <;> omega

theorem and_mask_even (a : Nat) : (a &&& 0xFFFE) &&& 1 = 0 := by
  have h : (0xFFFE &&& 1 : Nat) = 0 := by decide
  rw [Nat.and_assoc, h]
  simp

theorem and_mask_bit1 (a : Nat) : (a &&& 0xFFFFFFFD) &&& 2 = 0 := by
  have h : (0xFFFFFFFD &&& 2 : Nat) = 0 := by decide
  rw [Nat.and_assoc, h]
  simp

theorem pbkdf2Hmac_length (pw : String) (salt : List Nat) :
    (pbkdf2Hmac pw salt).length = 32 := by
  simp [pbkdf2Hmac]

theorem pbkdf2Hmac_ne_nil (pw : String) (salt : List Nat) : pbkdf2Hmac pw salt ≠ [] := by
  intro h
  have := pbkdf2Hmac_length pw salt
  rw [h] at this
  simp at this

theorem initFromPassword_err (salt iv : List Nat) :
    CryptoEngine.initFromPassword "" salt iv
      = .error "Password cannot be empty for key derivation" := rfl

theorem initFromPassword_ok (pw : String) (salt iv : List Nat) (h : pw ≠ "") :
    CryptoEngine.initFromPassword pw salt iv = .ok ⟨pbkdf2Hmac pw salt, iv, true⟩ := by
  unfold CryptoEngine.initFromPassword CryptoEngine.deriveKey
  simp [h]

theorem entryHeader_serialize_length (eh : EntryHeader) : eh.serialize.length = 26 := by
  simp [EntryHeader.serialize]

theorem EntryHeader.deserialize_serialize (eh : EntryHeader) :
    EntryHeader.deserialize eh.serialize
      = some ⟨eh.pathLength % 65536, eh.originalSize % 18446744073709551616,
              eh.compressedSize % 18446744073709551616, eh.fileType % 4294967296,
              eh.flags % 4294967296⟩ := by
  have hstep : EntryHeader.deserialize eh.serialize
      = some ⟨deBE [(eh.pathLength >>> 8) % 256, eh.pathLength % 256],
              deBE [(eh.originalSize >>> 56) % 256, (eh.originalSize >>> 48) % 256,
                    (eh.originalSize >>> 40) % 256, (eh.originalSize >>> 32) % 256,
                    (eh.originalSize >>> 24) % 256, (eh.originalSize >>> 16) % 256,
                    (eh.originalSize >>> 8) % 256, eh.originalSize % 256],
              deBE [(eh.compressedSize >>> 56) % 256, (eh.compressedSize >>> 48) % 256,
                    (eh.compressedSize >>> 40) % 256, (eh.compressedSize >>> 32) % 256,
                    (eh.compressedSize >>> 24) % 256, (eh.compressedSize >>> 16) % 256,
                    (eh.compressedSize >>> 8) % 256, eh.compressedSize % 256],
              deBE [(eh.fileType >>> 24) % 256, (eh.fileType >>> 16) % 256,
                    (eh.fileType >>> 8) % 256, eh.fileType % 256],
              deBE [(eh.flags >>> 24) % 256, (eh.flags >>> 16) % 256,
                    (eh.flags >>> 8) % 256, eh.flags % 256]⟩ := rfl
  rw [hstep, deBE_two, deBE_eight, deBE_eight, deBE_four, deBE_four]

theorem parseEntries_cons (e : VarcEntry) (rest : List Nat) (n : Nat) (hwf : WfEntry e) :
    parseEntries (n + 1) (e.record ++ rest)
      = match parseEntries n rest with
        | .error m => .error m
        | .ok es => .ok (e.readBack :: es) := by
  obtain ⟨hp, hcs, hdl⟩ := hwf
  have hchkLen : ((List.range 32).map (fun i => e.checksum.getD i 0)).length = 32 := by
    simp
  have hrec : e.record ++ rest
      = EntryHeader.serialize
          ⟨e.path.length % 4294967296, e.originalSize, e.compressedSize, e.fileType, e.flags⟩
        ++ (e.path ++ (e.data
        ++ ((List.range 32).map (fun i => e.checksum.getD i 0) ++ rest))) := by
    simp [VarcEntry.record]
  rw [hrec]
  simp only [parseEntries]
  rw [if_neg (by simp [entryHeader_serialize_length, EntryHeader.fixedSize])]
  rw [take_append_len _ _ 26 (entryHeader_serialize_length _)]
  rw [drop_append_len _ _ 26 (entryHeader_serialize_length _)]
  rw [EntryHeader.deserialize_serialize]
  have hpl : e.path.length % 4294967296 % 65536 = e.path.length := by omega
  have hcs2 : e.compressedSize % 18446744073709551616 = e.data.length := by omega
  simp only [hpl]
  rw [if_neg (by simp)]
  rw [take_append_len e.path _ _ rfl, drop_append_len e.path _ _ rfl]
  simp only [hcs2]
  rw [if_neg (by simp)]
  rw [take_append_len e.data _ _ rfl, drop_append_len e.data _ _ rfl]
  rw [if_neg (by simp)]
  rw [take_append_len _ rest 32 hchkLen, drop_append_len _ rest 32 hchkLen]
  rcases hpe : parseEntries n rest with m | es
  · simp only [hpe]
  · simp only [hpe]
    simp [VarcEntry.readBack, VarcEntry.mkMeta, VarcEntry.setCompressedSize,
      VarcEntry.setFlags, VarcEntry.setChecksum, VarcEntry.setData, hcs2]

theorem parseEntries_records (es : List VarcEntry) (hwf : ∀ e ∈ es, WfEntry e) :
    parseEntries es.length ((es.map VarcEntry.record).flatten)
      = .ok (es.map VarcEntry.readBack) := by
  induction es with
  | nil => rfl
  | cons e t ih =>
    simp only [List.map_cons, List.flatten_cons, List.length_cons]
    rw [parseEntries_cons e _ t.length (hwf e (by simp))]
    rw [ih (fun x hx => hwf x (by simp [hx]))]

theorem globalHeader_serialize_length (h : GlobalHeader) (hs : h.signature.length = 4) :
    h.serialize.length = 68 := by
  simp [GlobalHeader.serialize, hs]

theorem headerBytes64_length (h : GlobalHeader) (hs : h.signature.length = 4) :
    (headerBytes64 h).length = 64 := by
  simp [headerBytes64, globalHeader_serialize_length h hs]

theorem deserialize_headerBytes64 (h : GlobalHeader) (hs : h.signature = varcSignature) :
    ∃ res, GlobalHeader.deserialize (headerBytes64 h)
      = some ⟨varcSignature, h.version % 65536, h.flags % 65536, h.fileCount % 4294967296,
              (List.range 32).map (fun i => h.salt.getD i 0),
              (List.range 16).map (fun i => h.iv.getD i 0), res⟩ := by
  obtain ⟨sig, ver, fl, fc, salt, iv, res⟩ := h
  simp only at hs
  subst hs
  refine ⟨deBE [(res >>> 56) % 256, (res >>> 48) % 256, (res >>> 40) % 256,
    (res >>> 32) % 256, 0, 0, 0, 0], ?_⟩
  have hstep : GlobalHeader.deserialize
      (headerBytes64 ⟨varcSignature, ver, fl, fc, salt, iv, res⟩)
      = some ⟨varcSignature,
              deBE [(ver >>> 8) % 256, ver % 256],
              deBE [(fl >>> 8) % 256, fl % 256],
              deBE [(fc >>> 24) % 256, (fc >>> 16) % 256, (fc >>> 8) % 256, fc % 256],
              (List.range 32).map (fun i => salt.getD i 0),
              (List.range 16).map (fun i => iv.getD i 0),
              deBE [(res >>> 56) % 256, (res >>> 48) % 256, (res >>> 40) % 256,
                    (res >>> 32) % 256, 0, 0, 0, 0]⟩ := rfl
  rw [hstep, deBE_two, deBE_two, deBE_four]

theorem openBytes_save_counts (a : Archive) (pw : String) (ivF : List Nat)
    (hs : a.header.signature = varcSignature)
    (hfl : a.header.flags < 65536)
    (hcount : a.entries.length < 4294967296)
    (hwf : ∀ e ∈ a.entries, WfEntry e)
    (hpw : a.save.header.isEncrypted = true → pw ≠ "") :
    (Archive.openBytes a.save.archiveData pw ivF).map
        (fun b => (b.header.fileCount, b.entries.length))
      = .ok (a.entries.length, a.entries.length) := by
  have hf1lt : (if a.entries.isEmpty then a.header.flags &&& 0xFFFC else a.header.flags)
      < 65536 := by
    split
    · exact lt_of_le_of_lt Nat.and_le_left hfl
    · exact hfl
  set f1 : Nat := if a.entries.isEmpty then a.header.flags &&& 0xFFFC else a.header.flags
    with hf1
  set H : GlobalHeader :=
    ⟨a.header.signature, a.header.version, f1, a.entries.length % 4294967296,
     a.header.salt, a.header.iv, a.header.reserved⟩ with hH
  have hsave : a.save.archiveData
      = headerBytes64 H ++ (a.entries.map VarcEntry.record).flatten := by
    simp [Archive.save, Archive.updateHeader, hH, hf1]
  have hsaveH : a.save.header = H := by
    simp [Archive.save, Archive.updateHeader, hH, hf1]
  have hHsig : H.signature = varcSignature := by rw [hH]; exact hs
  have hhl : (headerBytes64 H).length = 64 :=
    headerBytes64_length H (by rw [hHsig]; rfl)
  obtain ⟨res, hdes⟩ := deserialize_headerBytes64 H hHsig
  unfold Archive.openBytes
  rw [hsave]
  rw [if_neg (by simp [hhl])]
  rw [take_append_len _ _ 64 hhl]
  rw [hdes]
  have hmod32 : a.entries.length % 4294967296 % 4294967296 = a.entries.length := by omega
  have hmodf : f1 % 65536 = f1 := Nat.mod_eq_of_lt hf1lt
  simp only [hH, hmod32, hmodf]
  simp only [GlobalHeader.isValid]
  rw [if_neg (by simp)]
  have hencEq : a.save.header.isEncrypted = (f1 &&& ArchiveFlags.ENCRYPTED != 0) := by
    rw [hsaveH, hH]
    rfl
  by_cases hEnc : (f1 &&& ArchiveFlags.ENCRYPTED != 0) = true
  · have hpw2 : pw ≠ "" := hpw (by rw [hencEq]; exact hEnc)
    simp only [GlobalHeader.isEncrypted, hEnc]
    rw [if_neg hpw2]
    rw [initFromPassword_ok _ _ _ hpw2]
    rw [drop_append_len _ _ 64 hhl]
    rw [parseEntries_records a.entries hwf]
    simp [Except.map]
  · simp only [GlobalHeader.isEncrypted, hEnc]
    rw [drop_append_len _ _ 64 hhl]
    rw [parseEntries_records a.entries hwf]
    simp [Except.map]


theorem or_flag_lt (x y : Nat) (hx : x < 65536) (hy : y < 65536) : x ||| y < 65536 := by
  have hx2 : x < 2 ^ 16 := by simpa using hx
  have hy2 : y < 2 ^ 16 := by simpa using hy
  simpa using Nat.or_lt_two_pow hx2 hy2

theorem aesCbcEncrypt_length (key iv p : List Nat) :
    (aesCbcEncrypt key iv p).length = p.length + (16 - p.length % 16) := by
  simp [aesCbcEncrypt, pkcs7Pad]

theorem setters_path (e : VarcEntry) (d : List Nat) (n : Nat) (c : List Nat) :
    (e.setData d).path = e.path ∧ (e.setFlags n).path = e.path
      ∧ (e.setCompressedSize n).path = e.path ∧ (e.setChecksum c).path = e.path := by
  simp [VarcEntry.setData, VarcEntry.setFlags, VarcEntry.setCompressedSize,
    VarcEntry.setChecksum]

theorem compress_stage_wf (z : Deflate) (hz : WfDeflate z) (opts : CreateOptions)
    (e0 : VarcEntry) (hwf0 : WfEntry e0) :
    WfEntry (if opts.compress = true then
        if (CompressionEngine.compress z e0.data).success = true then
          (((e0.setData (CompressionEngine.compress z e0.data).compressedData).setCompressedSize
            (CompressionEngine.compress z e0.data).compressedSize).setFlags
            (((e0.setData (CompressionEngine.compress z e0.data).compressedData).setCompressedSize
              (CompressionEngine.compress z e0.data).compressedSize).flags |||
              EntryFlags.COMPRESSED))
        else e0
      else e0) := by
  obtain ⟨hp0, hc0, hd0⟩ := hwf0
  split
  · split
    · by_cases hemp : e0.data.isEmpty = true
      · have hnil : e0.data = [] := by simpa [List.isEmpty_iff] using hemp
        refine ⟨?_, ?_, ?_⟩ <;>
          simp [CompressionEngine.compress, hnil, VarcEntry.setData, VarcEntry.setFlags,
            VarcEntry.setCompressedSize, hp0]
      · rcases hrun : z.run e0.data with _ | out
        · rename_i hcsucc
          simp [CompressionEngine.compress, hemp, hrun] at hcsucc
        · refine ⟨?_, ?_, ?_⟩ <;>
            simp [CompressionEngine.compress, hemp, hrun, VarcEntry.setData,
              VarcEntry.setFlags, VarcEntry.setCompressedSize, hp0]
          exact hz e0.data out hrun
    · exact ⟨hp0, hc0, hd0⟩
  · exact ⟨hp0, hc0, hd0⟩

theorem processEntry_inv (z : Deflate) (r : Rand) (a : Archive) (e : VarcEntry)
    (opts : CreateOptions) (b : Bool) (a' : Archive)
    (hz : WfDeflate z)
    (h : a.processEntry z r e opts = .ok (b, a'))
    (hwfa : WfArchive a)
    (h1 : e.path.length ≤ 65535) (h2 : e.compressedSize = e.data.length)
    (h3 : e.data.length + 16 < 18446744073709551616) :
    WfArchive a' ∧ a'.loaded = a.loaded
      ∧ a'.entries.length = a.entries.length + 1 := by
  obtain ⟨hsig, hfl, hent⟩ := hwfa
  unfold Archive.processEntry at h
  by_cases he : opts.encrypt = true
  · by_cases hpw : opts.password = ""
    · simp only [he, hpw] at h
      simp at h
      obtain ⟨hb, hA⟩ := h
      subst hA
      refine ⟨⟨hsig, hfl, ?_⟩, rfl, by simp⟩
      intro x hx
      rcases List.mem_append.mp hx with hx | hx
      · exact hent x hx
      · rcases List.mem_singleton.mp hx with rfl
        exact compress_stage_wf z hz opts e ⟨h1, h2, by omega⟩
    · by_cases hinit : a.crypto.isInit = true
      · have henceq : a.crypto.encrypt e.data
            = .ok (aesCbcEncrypt a.crypto.key a.crypto.iv e.data) := by
          simp [CryptoEngine.encrypt, hinit]
        simp only [he, hpw, hinit, henceq, not_true, ite_false, if_false,
          not_false_eq_true, ite_true, if_true] at h
        simp [hpw] at h
        obtain ⟨hb, hA⟩ := h
        subst hA
        have hwfenc : WfEntry ((e.setData (aesCbcEncrypt a.crypto.key a.crypto.iv
            e.data)).setFlags ((e.setData (aesCbcEncrypt a.crypto.key a.crypto.iv
            e.data)).flags ||| EntryFlags.ENCRYPTED)) := by
          refine ⟨?_, ?_, ?_⟩ <;>
            simp [VarcEntry.setData, VarcEntry.setFlags, h1, aesCbcEncrypt_length]
          omega
        refine ⟨⟨hsig, hfl, ?_⟩, rfl, by simp⟩
        intro x hx
        rcases List.mem_append.mp hx with hx | hx
        · exact hent x hx
        · rcases List.mem_singleton.mp hx with rfl
          exact compress_stage_wf z hz opts _ hwfenc
      · rcases hivc : r.ivCrypto with _ | ⟨iv0, ivt⟩
        · -- the fresh IV is empty: the crypto engine stays uninitialized and
          -- encrypt throws, contradicting h
          simp only [he, hpw, hinit, initFromPassword_ok opts.password r.salt r.ivCrypto hpw,
            not_false_eq_true, ite_true, if_true] at h
          rw [hivc] at h
          simp [CryptoEngine.encrypt, CryptoEngine.isInit, hpw] at h
        · have hiv : r.ivCrypto ≠ [] := by rw [hivc]; simp
          have hinit2 : (CryptoEngine.isInit
              ⟨pbkdf2Hmac opts.password r.salt, r.ivCrypto, true⟩) = true := by
            simp [CryptoEngine.isInit, hiv, pbkdf2Hmac_ne_nil]
          have henceq : CryptoEngine.encrypt
              ⟨pbkdf2Hmac opts.password r.salt, r.ivCrypto, true⟩ e.data
              = .ok (aesCbcEncrypt (pbkdf2Hmac opts.password r.salt) r.ivCrypto e.data) := by
            simp [CryptoEngine.encrypt, hinit2]
          simp only [he, hpw, hinit, initFromPassword_ok opts.password r.salt r.ivCrypto hpw,
            not_false_eq_true, ite_true, if_true, henceq] at h
          simp [hpw, henceq] at h
          obtain ⟨hb, hA⟩ := h
          subst hA
          have hwfenc : WfEntry ((e.setData (aesCbcEncrypt (pbkdf2Hmac opts.password r.salt)
              r.ivCrypto e.data)).setFlags ((e.setData (aesCbcEncrypt
              (pbkdf2Hmac opts.password r.salt) r.ivCrypto e.data)).flags |||
              EntryFlags.ENCRYPTED)) := by
            refine ⟨?_, ?_, ?_⟩ <;>
              simp [VarcEntry.setData, VarcEntry.setFlags, h1, aesCbcEncrypt_length]
            omega
          refine ⟨⟨by simpa using hsig, ?_, ?_⟩, rfl, by simp⟩
          · simpa using or_flag_lt a.header.flags ArchiveFlags.ENCRYPTED hfl (by decide)
          · intro x hx
            simp only at hx
            rcases List.mem_append.mp hx with hx | hx
            · exact hent x hx
            · rcases List.mem_singleton.mp hx with rfl
              exact compress_stage_wf z hz opts _ hwfenc
  · simp only [he] at h
    simp at h
    obtain ⟨hb, hA⟩ := h
    subst hA
    refine ⟨⟨hsig, hfl, ?_⟩, rfl, by simp⟩
    intro x hx
    rcases List.mem_append.mp hx with hx | hx
    · exact hent x hx
    · rcases List.mem_singleton.mp hx with rfl
      exact compress_stage_wf z hz opts e ⟨h1, h2, by omega⟩

theorem addVirtualFile_inv (z : Deflate) (r : Rand) (a : Archive)
    (path data : List Nat) (opts : CreateOptions) (b : Bool) (a2 : Archive)
    (hz : WfDeflate z)
    (h : a.addVirtualFile z r path data opts = .ok (b, a2))
    (hwfa : WfArchive a)
    (hp : path.length ≤ 65535) (hd : data.length + 16 < 18446744073709551616) :
    WfArchive a2 ∧ a2.entries.length ≤ a.entries.length + 1 := by
  unfold Archive.addVirtualFile at h
  by_cases hl : a.loaded = true
  · simp only [hl, not_true, ite_false, if_false, Bool.not_eq_true,
      not_false_eq_true, ite_true, if_true] at h
    have := processEntry_inv z r a (VarcEntry.mkFromBytes path data .FILE) opts b a2 hz
      (by simpa using h) hwfa (by simp [VarcEntry.mkFromBytes, hp])
      (by simp [VarcEntry.mkFromBytes]) (by simp [VarcEntry.mkFromBytes]; omega)
    refine ⟨this.1, ?_⟩
    have h5 := this.2.2
    omega
  · simp only [hl] at h
    simp at h
    obtain ⟨hb, hA⟩ := h
    obtain ⟨h1, h2, h3⟩ := hwfa
    rw [← hA]
    refine ⟨⟨h1, h2, h3⟩, ?_⟩
    show a.entries.length ≤ a.entries.length + 1
    omega

theorem removeEntry_inv (a : Archive) (path : List Nat) (hwfa : WfArchive a)
    (b : Bool) (a2 : Archive) (h : a.removeEntry path = (b, a2)) :
    WfArchive a2 ∧ a2.entries.length ≤ a.entries.length := by
  obtain ⟨h1, h2, h3⟩ := hwfa
  unfold Archive.removeEntry at h
  split at h
  · simp at h
    obtain ⟨hb, hA⟩ := h
    rw [← hA]
    refine ⟨⟨h1, h2, h3⟩, ?_⟩
    show a.entries.length ≤ a.entries.length
    omega
  · simp at h
    obtain ⟨hb, hA⟩ := h
    rw [← hA]
    refine ⟨⟨h1, h2, ?_⟩, ?_⟩
    · intro e he
      exact h3 e (List.mem_of_mem_eraseP he)
    · show (a.entries.eraseP (fun e => e.path == path)).length ≤ a.entries.length
      exact List.length_eraseP_le a.entries

theorem applyOps_inv (z : Deflate) (hz : WfDeflate z) :
    ∀ (ops : List ArchiveOp) (a a' : Archive),
      (∀ op ∈ ops, WfOp op) → applyOps z a ops = .ok a' → WfArchive a →
      WfArchive a' ∧ a'.entries.length ≤ a.entries.length + ops.length := by
  intro ops
  induction ops with
  | nil =>
    intro a a' _ h hw
    simp [applyOps] at h
    rw [← h]
    exact ⟨hw, by omega⟩
  | cons op rest ih =>
    intro a a' hops h hw
    rcases op with ⟨r, path, data, opts⟩ | path
    · unfold applyOps at h
      rcases hstep : a.addVirtualFile z r path data opts with msg | p
      · rw [hstep] at h
        simp at h
      · rw [hstep] at h
        simp only [] at h
        obtain ⟨hp1, hp2, _⟩ := hops (.add r path data opts) (by simp)
        rcases p with ⟨b, a2⟩
        have hinv := addVirtualFile_inv z r a path data opts b a2 hz hstep hw hp1 hp2
        have hrec := ih a2 a' (fun x hx => hops x (by simp [hx])) h hinv.1
        refine ⟨hrec.1, ?_⟩
        have h5 := hinv.2
        have h6 := hrec.2
        simp only [List.length_cons]
        omega
    · unfold applyOps at h
      rcases hrm : a.removeEntry path with ⟨b, a2⟩
      rw [hrm] at h
      have hinv := removeEntry_inv a path hw b a2 hrm
      have hrec := ih a2 a' (fun x hx => hops x (by simp [hx])) h hinv.1
      refine ⟨hrec.1, ?_⟩
      have h5 := hinv.2
      have h6 := hrec.2
      simp only [List.length_cons]
      omega

theorem processEntry_skip_encrypt (z : Deflate) (r : Rand) (a : Archive) (e : VarcEntry)
    (opts : CreateOptions) (h : opts.password = "") :
    a.processEntry z r e opts = a.processEntry z r e { opts with encrypt := false } := by
  unfold Archive.processEntry
  simp [h]

theorem processEntry_plain (z : Deflate) (r : Rand) (a : Archive) (e : VarcEntry)
    (opts : CreateOptions) (h1 : opts.encrypt = false) (h2 : opts.compress = false) :
    a.processEntry z r e opts
      = .ok (true, { a with entries := a.entries ++ [e], modified := true }) := by
  unfold Archive.processEntry
  simp [h1, h2]

theorem processEntry_compress_fail (z : Deflate) (r : Rand) (a : Archive) (e : VarcEntry)
    (opts : CreateOptions) (h1 : opts.encrypt = false) (h2 : e.data ≠ [])
    (h3 : z.run e.data = none) :
    a.processEntry z r e opts = a.processEntry z r e { opts with compress := false } := by
  unfold Archive.processEntry
  simp only [h1, Bool.false_and, Bool.false_eq_true, if_false, ite_false]
  cases hc : opts.compress
  · rfl
  · simp [CompressionEngine.compress, h2, h3]

theorem processEntry_appends (z : Deflate) (r : Rand) (a : Archive) (e : VarcEntry)
    (opts : CreateOptions) (hiv : r.ivCrypto ≠ []) :
    (a.processEntry z r e opts).map (fun x => (x.1, x.2.entries.length))
      = .ok (true, a.entries.length + 1) := by
  unfold Archive.processEntry
  by_cases he : opts.encrypt = true
  · by_cases hpw : opts.password = ""
    · simp [he, hpw, Except.map]
    · by_cases hinit : a.crypto.isInit = true
      · simp [he, hpw, hinit, CryptoEngine.encrypt, Except.map]
      · simp only [he, hpw, hinit, initFromPassword_ok opts.password r.salt r.ivCrypto hpw,
          not_false_eq_true, ite_true, if_true, Bool.not_eq_true, decide_not]
        simp [CryptoEngine.encrypt, CryptoEngine.isInit, pbkdf2Hmac_ne_nil, hiv,
          Except.map, hpw]
  · simp [he, Except.map]

theorem unlock_not_enc (a : Archive) (pw : String) (iv : List Nat)
    (h : a.header.isEncrypted = false) :
    a.unlock pw iv = (false, { a with errorMessage := "Archive is not encrypted" }) := by
  unfold Archive.unlock
  simp [h]

theorem unlock_empty_pw (a : Archive) (iv : List Nat) (h : a.header.isEncrypted = true) :
    a.unlock "" iv
      = (false, { a with errorMessage := "Incorrect password or decryption failed" }) := by
  unfold Archive.unlock
  rw [initFromPassword_err]
  simp [h]

theorem unlock_ok (a : Archive) (pw : String) (iv : List Nat)
    (h1 : a.header.isEncrypted = true) (h2 : pw ≠ "") :
    a.unlock pw iv
      = (true,
         { a with
           crypto := ⟨pbkdf2Hmac pw a.header.salt, iv, true⟩
           header := { a.header with flags := a.header.flags &&& 0xFFFE }
           entries := a.entries.map (fun e => e.setFlags (e.flags &&& 0xFFFFFFFD))
           modified := true }) := by
  unfold Archive.unlock
  rw [initFromPassword_ok pw _ _ h2]
  simp [h1]

theorem and_mask_fffc_one (a : Nat) : (a &&& 0xFFFC) &&& 1 = 0 := by
  have h : (0xFFFC &&& 1 : Nat) = 0 := by decide
  rw [Nat.and_assoc, h]
  simp

theorem and_mask_fffc_one_mod (a : Nat) : (a &&& 0xFFFC) % 2 = 0 := by
  rw [← Nat.and_one_is_mod]
  exact and_mask_fffc_one a

theorem and_mask_fffc_two (a : Nat) : (a &&& 0xFFFC) &&& 2 = 0 := by
  have h : (0xFFFC &&& 2 : Nat) = 0 := by decide
  rw [Nat.and_assoc, h]
  simp

/-- C1: refuted round trip at a concrete failing input.  After `create()`,
`add_virtual("hi", [1], encrypt, password "pw")`, `save`, `open` with the
*correct* password, `extract_file` returns the stored AES-CBC ciphertext (16
bytes) — `Archive::extractFile` writes the stored bytes verbatim, reversing
neither encryption nor compression — so the extracted bytes differ from the
original `[1]`. -/
theorem c1_extract_returns_stored_ciphertext :
    (((Archive.openBytes encBuf "pw" iv0).toOption.getD default).extractFile
        [104, 105] "pw").toOption
      = some (aesCbcEncrypt (pbkdf2Hmac "pw" rand0.salt) rand0.ivCrypto [1])
    ∧ aesCbcEncrypt (pbkdf2Hmac "pw" rand0.salt) rand0.ivCrypto [1] ≠ [1] := by
  constructor
  · decide
  · decide

/-- C2: refuted checksum invariance at a concrete failing input.  Processing
the entry `"a" ↦ [0x41]` through the pipeline with encryption stores
`sha256(ciphertext)` as the checksum — `VarcEntry::setData` recomputes the
checksum from the transformed bytes — which differs from `sha256([0x41])`,
the checksum computed at entry creation. -/
theorem c2_pipeline_overwrites_checksum :
    ((Archive.processEntry zNone rand0 Archive.create e65 encOpts).toOption.map
        (fun p => p.2.entries.map (fun e => e.checksum)))
      = some [sha256 (aesCbcEncrypt (pbkdf2Hmac "pw" rand0.salt) rand0.ivCrypto [65])]
    ∧ sha256 (aesCbcEncrypt (pbkdf2Hmac "pw" rand0.salt) rand0.ivCrypto [65])
        ≠ sha256 [65] := by
  constructor
  · decide
  · decide

/-- C3: refuted verification at a concrete failing input (the spec's S6
scenario).  In a saved archive holding `"a" ↦ [0x41]`, the data byte is
corrupted to `[0x42]`; reopening succeeds, and `verify` still returns `true`
although the checksum recorded in the file (present at offset 92) does not
match the corrupted data — `Archive::verifyEntry` only checks that the entry
exists. -/
theorem c3_verify_ignores_corruption :
    (Archive.openBytes corruptBuf "" iv0).toOption.isSome = true
    ∧ ((Archive.openBytes corruptBuf "" iv0).toOption.getD default).verify "" = true
    ∧ ((Archive.openBytes corruptBuf "" iv0).toOption.getD default).entries.map
        (fun e => e.data) = [[66]]
    ∧ (corruptBuf.drop 92).take 32 = sha256 [65]
    ∧ CryptoEngine.verifyChecksum [66] (sha256 [65]) = false := by
  refine ⟨by decide, by decide, by decide, by decide, by decide⟩

/-- C4: refuted wrong-password detection at a concrete failing input.
Opening the encrypted archive (created with password `"pw"`) with the wrong
password `"WRONG"` succeeds — `Archive::readArchive` only derives a key and
never verifies anything — and the entry silently holds the undecrypted
ciphertext rather than the original bytes `[1]`. -/
theorem c4_open_wrong_password_succeeds :
    (Archive.openBytes encBuf "WRONG" iv0).toOption.isSome = true
    ∧ ((Archive.openBytes encBuf "WRONG" iv0).toOption.getD default).entries.map
        (fun e => e.data)
      = [aesCbcEncrypt (pbkdf2Hmac "pw" rand0.salt) rand0.ivCrypto [1]]
    ∧ aesCbcEncrypt (pbkdf2Hmac "pw" rand0.salt) rand0.ivCrypto [1] ≠ [1] := by
  refine ⟨by decide, by decide, by decide⟩

/-- C7 counterexample: `decompress` on the empty input with `expected_size = 5`
returns `ok = true` although the output length (0) differs from the expected
size, refuting "if the output length differs from expected_size then it fails
with SizeMismatch". -/
theorem c7_counterexample_no_size_check :
    (CompressionEngine.decompress iNone [] 5).success = true
    ∧ (CompressionEngine.decompress iNone [] 5).decompressedData.length ≠ 5 := by
  constructor
  · decide
  · decide

/-- C7 (amended): `decompress` performs no output-size check at all: it
succeeds exactly when the input is empty or the inflate body succeeds,
regardless of `expected_size`, which only populates `originalSize` (and the
initial buffer allocation). -/
theorem c7_decompress_ignores_expected_size (z : Inflate) (data : List Nat)
    (expectedSize : Nat) :
    (CompressionEngine.decompress z data expectedSize).success
        = (data.isEmpty || (z.run data).isSome)
    ∧ (CompressionEngine.decompress z data expectedSize).originalSize = expectedSize := by
  unfold CompressionEngine.decompress
  split
  · simp_all
  · rcases h : z.run data with _ | out <;> simp_all

/-- C8: refuted glob semantics at a concrete failing input.  An archive
containing the single entry `"a.txt"` yields *no* matches for the glob
`"*.txt"` although `".txt"` is a suffix of `"a.txt"`: in the matcher, a `'*'`
followed by a tail without a further `'*'` sets the pattern index to `npos`,
and the final `j == pattern.size()` test then always fails. -/
theorem c8_findEntries_glob_returns_nothing :
    txtAdded.findEntries globTxt = []
    ∧ txtAdded.entries.map (fun e => e.path) = [[97, 46, 116, 120, 116]]
    ∧ [46, 116, 120, 116].isSuffixOf [97, 46, 116, 120, 116] = true
    ∧ matchesPattern [97, 46, 116, 120, 116] globTxt = false := by
  refine ⟨by decide, by decide, by decide, by decide⟩

/-- C9: `unlock(password)` succeeds exactly when the header ENCRYPTED flag is
set and the password is non-empty (the password is never verified against the
original), and on success it clears the header ENCRYPTED bit and every
entry's ENCRYPTED bit. -/
theorem c9_unlock_never_verifies_password (a : Archive) (pw : String) (ivFresh : List Nat) :
    ((a.unlock pw ivFresh).1 = (a.header.isEncrypted && !(pw == "")))
    ∧ ((a.unlock pw ivFresh).1 = true →
        ((a.unlock pw ivFresh).2.header.isEncrypted = false
          ∧ ∀ e ∈ (a.unlock pw ivFresh).2.entries, e.isEncrypted = false)) := by
  by_cases henc : a.header.isEncrypted = true
  · by_cases hpw : pw = ""
    · subst hpw
      rw [unlock_empty_pw a ivFresh henc]
      simp [henc]
    · rw [unlock_ok a pw ivFresh henc hpw]
      refine ⟨by simp [henc, hpw], ?_⟩
      intro _
      constructor
      · simp [GlobalHeader.isEncrypted, ArchiveFlags.ENCRYPTED, and_mask_even]
      · intro e he
        simp only [List.mem_map] at he
        obtain ⟨e0, _, rfl⟩ := he
        simp [VarcEntry.isEncrypted, EntryFlags.ENCRYPTED, VarcEntry.setFlags, and_mask_bit1]
  · rw [Bool.not_eq_true] at henc
    rw [unlock_not_enc a pw ivFresh henc]
    simp [henc]

/-- C9 witness: the general theorem applied to a concrete encrypted archive
(`plainAdded` with the ENCRYPTED header bit forced on) and password `"pw"`. -/
theorem c9_unlock_witness :
    (({ plainAdded with
        header := { plainAdded.header with flags := 1 } }.unlock "pw" iv0).1
      = (({ plainAdded with
            header := { plainAdded.header with flags := 1 } }.header.isEncrypted)
          && !(("pw" : String) == "")))
    ∧ ((({ plainAdded with
          header := { plainAdded.header with flags := 1 } }.unlock "pw" iv0).1 = true →
        ((({ plainAdded with
            header := { plainAdded.header with flags := 1 } }.unlock "pw"
              iv0).2.header.isEncrypted = false)
          ∧ ∀ e ∈ ({ plainAdded with
              header := { plainAdded.header with flags := 1 } }.unlock "pw"
                iv0).2.entries, e.isEncrypted = false))) :=
  c9_unlock_never_verifies_password
    { plainAdded with header := { plainAdded.header with flags := 1 } } "pw" iv0

/-- C10: on an open archive `add_virtual` (through `processEntry`) always
returns `true` and appends exactly one entry; requesting encryption with an
empty password silently skips the encryption stage (plaintext stored, no
ENCRYPTED flag, no error); a failing compressor silently skips the
compression stage (uncompressed data stored, no COMPRESSED flag, no error);
and with both stages off the entry is appended untouched. -/
theorem c10_processEntry_never_fails (z : Deflate) (r : Rand) (a : Archive)
    (path data : List Nat) (opts : CreateOptions) (e : VarcEntry)
    (hload : a.loaded = true) (hiv : r.ivCrypto ≠ []) :
    ((a.addVirtualFile z r path data opts).map (fun x => (x.1, x.2.entries.length))
        = .ok (true, a.entries.length + 1))
    ∧ (opts.password = "" →
        a.processEntry z r e opts = a.processEntry z r e { opts with encrypt := false })
    ∧ (opts.encrypt = false → e.data ≠ [] → z.run e.data = none →
        a.processEntry z r e opts = a.processEntry z r e { opts with compress := false })
    ∧ (opts.encrypt = false → opts.compress = false →
        a.processEntry z r e opts
          = .ok (true, { a with entries := a.entries ++ [e], modified := true })) := by
  refine ⟨?_, ?_, ?_, ?_⟩
  · unfold Archive.addVirtualFile
    rw [if_neg (by simp [hload])]
    exact processEntry_appends z r a (VarcEntry.mkFromBytes path data .FILE) opts hiv
  · intro h
    exact processEntry_skip_encrypt z r a e opts h
  · intro h1 h2 h3
    exact processEntry_compress_fail z r a e opts h1 h2 h3
  · intro h1 h2
    exact processEntry_plain z r a e opts h1 h2

/-- C10 witness: the general theorem at a concrete open archive, a concrete
entry and the always-failing compressor. -/
theorem c10_processEntry_witness :
    ((Archive.create.addVirtualFile zNone rand0 [97] [65] encOpts).map
        (fun x => (x.1, x.2.entries.length)) = .ok (true, Archive.create.entries.length + 1))
    ∧ (encOpts.password = "" →
        Archive.create.processEntry zNone rand0 e65 encOpts
          = Archive.create.processEntry zNone rand0 e65 { encOpts with encrypt := false })
    ∧ (encOpts.encrypt = false → e65.data ≠ [] → zNone.run e65.data = none →
        Archive.create.processEntry zNone rand0 e65 encOpts
          = Archive.create.processEntry zNone rand0 e65 { encOpts with compress := false })
    ∧ (encOpts.encrypt = false → encOpts.compress = false →
        Archive.create.processEntry zNone rand0 e65 encOpts
          = .ok (true, { Archive.create with
              entries := Archive.create.entries ++ [e65], modified := true })) :=
  c10_processEntry_never_fails zNone rand0 Archive.create [97] [65] encOpts e65
    (by decide) (by decide)

/-- C5: the file-count invariant.  For every sequence of well-formed add and
remove operations run from `create()`, saving and reopening yields an archive
whose header `file_count` equals its entry-list length (and equals the saved
archive's entry count); moreover `updateHeader` sets `file_count` to the
entry count (as a 32-bit value) and clears the header ENCRYPTED and
COMPRESSED bits when the entry list is empty. -/
theorem c5_file_count_invariant (z : Deflate) (ops : List ArchiveOp)
    (a b : Archive) (pw : String) (ivF : List Nat)
    (hz : WfDeflate z) (hops : ∀ op ∈ ops, WfOp op)
    (hlen : ops.length < 4294967296)
    (happ : applyOps z Archive.create ops = .ok a)
    (hpw : a.save.header.isEncrypted = true → pw ≠ "")
    (hopen : Archive.openBytes a.save.archiveData pw ivF = .ok b) :
    (b.header.fileCount = b.entries.length ∧ b.entries.length = a.entries.length)
    ∧ (∀ c : Archive,
        c.updateHeader.header.fileCount = c.entries.length % 4294967296)
    ∧ (∀ c : Archive, c.entries = [] →
        c.updateHeader.header.flags &&& ArchiveFlags.ENCRYPTED = 0
          ∧ c.updateHeader.header.flags &&& ArchiveFlags.COMPRESSED = 0) := by
  have hwf0 : WfArchive Archive.create := ⟨rfl, by decide, by simp [Archive.create]⟩
  have hinv := applyOps_inv z hz ops Archive.create a hops happ hwf0
  have hcount : a.entries.length < 4294967296 := by
    have h2 := hinv.2
    simp [Archive.create] at h2
    omega
  obtain ⟨⟨hsig, hfl, hwfe⟩, _⟩ := hinv
  have hmain := openBytes_save_counts a pw ivF hsig hfl hcount hwfe hpw
  rw [hopen] at hmain
  simp [Except.map] at hmain
  refine ⟨⟨?_, ?_⟩, ?_, ?_⟩
  · rw [hmain.1, hmain.2]
  · exact hmain.2
  · intro c
    simp [Archive.updateHeader]
  · intro c hc
    constructor
    · simp [Archive.updateHeader, hc, ArchiveFlags.ENCRYPTED, and_mask_fffc_one, and_mask_fffc_one_mod]
    · simp [Archive.updateHeader, hc, ArchiveFlags.COMPRESSED, and_mask_fffc_two]

/-- C5 witness: the invariant at the concrete one-add operation sequence,
saved and reopened without a password. -/
theorem c5_file_count_witness :
    ((c5b.header.fileCount = c5b.entries.length ∧ c5b.entries.length = c5a.entries.length)
    ∧ (∀ c : Archive,
        c.updateHeader.header.fileCount = c.entries.length % 4294967296)
    ∧ (∀ c : Archive, c.entries = [] →
        c.updateHeader.header.flags &&& ArchiveFlags.ENCRYPTED = 0
          ∧ c.updateHeader.header.flags &&& ArchiveFlags.COMPRESSED = 0)) :=
  c5_file_count_invariant zNone ops0 c5a c5b "" iv0
    (fun d out h => by simp [zNone] at h)
    (by
      intro op hop
      simp only [ops0, List.mem_singleton] at hop
      subst hop
      refine ⟨by decide, by decide, by decide⟩)
    (by decide)
    (by rfl)
    (by decide)
    (by rfl)

theorem take68_decompose (l : List Nat) :
    l.take 68 = l.take 4 ++ ((l.drop 4).take 2 ++ ((l.drop 6).take 2
      ++ ((l.drop 8).take 4 ++ ((l.drop 12).take 32 ++ ((l.drop 44).take 16
      ++ (l.drop 60).take 8))))) := by
  rw [show (68 : Nat) = 4 + 64 from rfl, List.take_add]
  congr 1
  rw [show (64 : Nat) = 2 + 62 from rfl, List.take_add, List.drop_drop]
  congr 1
  rw [show (62 : Nat) = 2 + 60 from rfl, List.take_add, List.drop_drop]
  congr 1
  rw [show (60 : Nat) = 4 + 56 from rfl, List.take_add, List.drop_drop]
  congr 1
  rw [show (56 : Nat) = 32 + 24 from rfl, List.take_add, List.drop_drop]
  congr 1
  rw [show (24 : Nat) = 16 + 8 from rfl, List.take_add, List.drop_drop]

/-- C6 counterexample: the 64-byte buffer `VARC` followed by zeros is accepted
by the global-header decoder, but re-encoding the decoded header does not
reproduce the input — `GlobalHeader::serialize` emits 68 bytes
(4+2+2+4+32+16+8), not 64. -/
theorem c6_counterexample_reencode :
    (GlobalHeader.deserialize hdr64ex).isSome = true
    ∧ (GlobalHeader.deserialize hdr64ex).map GlobalHeader.serialize ≠ some hdr64ex := by
  constructor
  · decide
  · decide

/-- C6 (amended): decoding fails exactly when the buffer is shorter than 64
bytes or the 4-byte signature is not `VARC`; and for every accepted byte
buffer long enough to cover the encoder's actual 68-byte footprint (the C++
reads indices 60..67 of the buffer), re-encoding the decoded header
reproduces the first 68 input bytes verbatim, reserved field included. -/
theorem c6_header_codec (buf : List Nat) (hb : ∀ x ∈ buf, x < 256) :
    (GlobalHeader.deserialize buf = none ↔ buf.length < 64 ∨ buf.take 4 ≠ varcSignature)
    ∧ (68 ≤ buf.length →
        ∀ h, GlobalHeader.deserialize buf = some h → h.serialize = buf.take 68) := by
  constructor
  · unfold GlobalHeader.deserialize
    by_cases h1 : buf.length < 64
    · simp [h1]
    · by_cases h2 : buf.take 4 ≠ varcSignature
      · simp [h1, h2]
      · simp [h1, h2]
  · intro h68 hh hdes
    unfold GlobalHeader.deserialize at hdes
    rw [if_neg (by omega)] at hdes
    by_cases hsig : buf.take 4 ≠ varcSignature
    · rw [if_pos hsig] at hdes
      cases hdes
    · rw [if_neg hsig] at hdes
      injection hdes with hdes
      subst hdes
      have l42 : ((buf.drop 4).take 2).length = 2 := by simp; omega
      have l62 : ((buf.drop 6).take 2).length = 2 := by simp; omega
      have l84 : ((buf.drop 8).take 4).length = 4 := by simp; omega
      have l12 : ((buf.drop 12).take 32).length = 32 := by simp; omega
      have l44 : ((buf.drop 44).take 16).length = 16 := by simp; omega
      have l60 : ((buf.drop 60).take 8).length = 8 := by simp; omega
      have hbs : ∀ (o n : Nat), ∀ x ∈ (buf.drop o).take n, x < 256 := by
        intro o n x hx
        exact hb x (List.drop_subset o buf (List.take_subset n (buf.drop o) hx))
      have hm8 : (List.range 8).map (fun i => buf.getD (60 + i) 0)
          = (buf.drop 60).take 8 := by
        apply List.ext_getElem
        · simp
          omega
        · intro i hi1 hi2
          simp only [List.getElem_map, List.getElem_range]
          rw [List.getElem_take]
          have hib : 60 + i < buf.length := by
            simp at hi2
            omega
          rw [List.getD_eq_getElem buf 0 hib]
          exact (List.getElem_drop buf).symm
      simp only [GlobalHeader.serialize]
      rw [hm8]
      rw [be16_of_deBE _ l42 (hbs 4 2), be16_of_deBE _ l62 (hbs 6 2),
        be32_of_deBE _ l84 (hbs 8 4), be64_of_deBE _ l60 (hbs 60 8),
        range_map_getD 32 _ l12, range_map_getD 16 _ l44]
      rw [take68_decompose buf]
      simp [List.append_assoc]

/-- C6 witness: the amended codec statement at a concrete accepted 68-byte
buffer with distinctive bytes in every field. -/
theorem c6_header_codec_witness :
    (GlobalHeader.deserialize hdr68ex = none
        ↔ hdr68ex.length < 64 ∨ hdr68ex.take 4 ≠ varcSignature)
    ∧ (68 ≤ hdr68ex.length →
        ∀ h, GlobalHeader.deserialize hdr68ex = some h → h.serialize = hdr68ex.take 68) :=
  c6_header_codec hdr68ex (by decide)

end VaultArchive
